import Mathlib

/-!
Shallow embedding of the Yagi goat-management backend's persistence core
(`src/db.rs`, `src/db_helpers.rs`, `src/handlers/goats.rs`, plus the
`backend/src` historical variant) and proofs about its specified behaviour.

Modelling conventions:
* SQLite stores are modelled as explicit list-based tables inside a `Store`
  record; generated rowids are modelled by per-table counters
  (`nextGoatId`, …), matching SQLite's monotone rowid allocation.
* `f64` scalar columns (cost, weight, current_price) are threaded verbatim
  and never computed on by the code, so they are modelled by `Int` payloads.
* Fallible SQL statements are numbered; an externally supplied fault set
  (`faults : List Nat`) makes the statement with that index fail with an
  engine-level error, modelling connection/query failures of the engine.
* A rusqlite transaction that is dropped on an error path rolls back; the
  `committed` function encodes exactly that drop semantics.
-/

namespace Yagi

/-- `Breed` enumeration from `models.rs` / the shared crate: ten named breeds
plus an open `Other` variant carrying the raw label. -/
inductive Breed where
  | Beetal
  | Jamunapari
  | Barbari
  | Sirohi
  | Osmanabadi
  | BlackBengal
  | Kutchi
  | Kaghani
  | Chegu
  | Jakhrana
  | Other (name : String)
deriving DecidableEq, Repr

/-- `Gender` enumeration from `models.rs`. -/
inductive Gender where
  | Male
  | Female
deriving DecidableEq, Repr

/-- `ParseEnumError` from `errors.rs`: offending input plus target enum name. -/
structure ParseEnumError where
  input : String
  target_enum : String
deriving DecidableEq, Repr

/-- Model of `rusqlite::Error` values that the embedded code can produce. -/
inductive SqlError where
  /-- Engine-level failure injected at the statement with this index. -/
  | injected (step : Nat)
  /-- Uniqueness-constraint violation on the given table for the given name. -/
  | constraintUnique (table : String) (name : String)
  /-- `query_row` found no row. -/
  | queryReturnedNoRows
  /-- `ToSqlConversionFailure` wrapping a row-mapping failure message. -/
  | rowMapping (msg : String)
deriving DecidableEq, Repr

/-- `AppError` from `errors.rs`: `DbError`, `InvalidInput`, `ParseError`. -/
inductive AppError where
  | DbError (e : SqlError)
  | InvalidInput (msg : String)
  | ParseError (e : ParseEnumError)
deriving DecidableEq, Repr

instance {ε α : Type} [DecidableEq ε] [DecidableEq α] :
    DecidableEq (Except ε α) := fun x y =>
  match x, y with
  | .ok a, .ok b =>
    if h : a = b then isTrue (h ▸ rfl)
    else isFalse (fun hh => h (Except.ok.inj hh))
  | .error a, .error b =>
    if h : a = b then isTrue (h ▸ rfl)
    else isFalse (fun hh => h (Except.error.inj hh))
  | .ok _, .error _ => isFalse (fun hh => Except.noConfusion hh)
  | .error _, .ok _ => isFalse (fun hh => Except.noConfusion hh)

/-- Display text of a `ParseEnumError` (its `fmt::Display` impl in `errors.rs`). -/
def ParseEnumError.message (e : ParseEnumError) : String :=
  "Value '" ++ e.input ++ "' is not a valid variant of enum '" ++ e.target_enum ++ "'"

/-- Display text of an `AppError` (the `thiserror` messages in `errors.rs`).
`rusqlite::Error` display text is abbreviated to a fixed tag; nothing proved
here depends on its exact wording. -/
def AppError.message : AppError → String
  | .DbError _ => "Database error: <sqlite>"
  | .InvalidInput msg => "Invalid input: " ++ msg
  | .ParseError e => "Parsing error: " ++ e.message

/-- Modelled from the spec: §7's error taxonomy at the collaborator boundary
(`StoreError`, `ParseEnumError`, `NotFoundError`, `InvalidInputError`).
The code's `AppError` has no variant in the `NotFoundError` category. -/
inductive SpecErrorCategory where
  | storeError
  | parseEnumError
  | notFoundError
  | invalidInputError
deriving DecidableEq, Repr

/-- Modelled from the spec: classification of the code's `AppError` values into
§7's taxonomy, following §7's descriptions of each category. -/
def specCategory : AppError → SpecErrorCategory
  | .DbError _ => .storeError
  | .InvalidInput _ => .invalidInputError
  | .ParseError _ => .parseEnumError

/-! ## Enum codecs (`src/db_helpers.rs`, main variant) -/

/-- `str_to_gender` from `src/db_helpers.rs`: case-sensitive match on
`"Male"` / `"Female"`; anything else is a `ParseEnumError` carrying the
input verbatim and the target enum name `"Gender"`. -/
def str_to_gender (s : String) : Except AppError Gender :=
  if s = "Male" then .ok .Male
  else if s = "Female" then .ok .Female
  else .error (.ParseError ⟨s, "Gender"⟩)

/-- `gender_to_str` from `src/db_helpers.rs`. -/
def gender_to_str : Gender → String
  | .Male => "Male"
  | .Female => "Female"

/-- `str_to_breed` from `src/db_helpers.rs`: ten named labels, everything else
wrapped as `Other` carrying the raw text; never fails (the `Result` wrapper is
kept to mirror the source signature). -/
def str_to_breed (s : String) : Except AppError Breed :=
  if s = "Beetal" then .ok .Beetal
  else if s = "Jamunapari" then .ok .Jamunapari
  else if s = "Barbari" then .ok .Barbari
  else if s = "Sirohi" then .ok .Sirohi
  else if s = "Osmanabadi" then .ok .Osmanabadi
  else if s = "BlackBengal" then .ok .BlackBengal
  else if s = "Kutchi" then .ok .Kutchi
  else if s = "Kaghani" then .ok .Kaghani
  else if s = "Chegu" then .ok .Chegu
  else if s = "Jakhrana" then .ok .Jakhrana
  else .ok (.Other s)

/-- `breed_to_str` from `src/db_helpers.rs`. -/
def breed_to_str : Breed → String
  | .Beetal => "Beetal"
  | .Jamunapari => "Jamunapari"
  | .Barbari => "Barbari"
  | .Sirohi => "Sirohi"
  | .Osmanabadi => "Osmanabadi"
  | .BlackBengal => "BlackBengal"
  | .Kutchi => "Kutchi"
  | .Kaghani => "Kaghani"
  | .Chegu => "Chegu"
  | .Jakhrana => "Jakhrana"
  | .Other name => name

/-- ASCII lowering of one character.  Rust's `str::to_lowercase` is Unicode
aware, but every input the gender codec distinguishes is ASCII, so the model
lowers the ASCII letters and keeps every other character unchanged. -/
def lowerAscii (c : Char) : Char :=
  match c with
  | 'A' => 'a' | 'B' => 'b' | 'C' => 'c' | 'D' => 'd' | 'E' => 'e'
  | 'F' => 'f' | 'G' => 'g' | 'H' => 'h' | 'I' => 'i' | 'J' => 'j'
  | 'K' => 'k' | 'L' => 'l' | 'M' => 'm' | 'N' => 'n' | 'O' => 'o'
  | 'P' => 'p' | 'Q' => 'q' | 'R' => 'r' | 'S' => 's' | 'T' => 't'
  | 'U' => 'u' | 'V' => 'v' | 'W' => 'w' | 'X' => 'x' | 'Y' => 'y'
  | 'Z' => 'z' | other => other

/-- Model of Rust's `str::to_lowercase` applied by the backend gender codec. -/
def rustToLowercase (s : String) : String :=
  String.mk (s.data.map lowerAscii)

/-- `str_to_gender` from `backend/src/db_helpers.rs` (historical variant):
lowercases the input first, then matches `"male"` / `"female"`; the parse
error carries the lowercased text, not the original input. -/
def backend_str_to_gender (s : String) : Except AppError Gender :=
  let t := rustToLowercase s
  if t = "male" then .ok .Male
  else if t = "female" then .ok .Female
  else .error (.ParseError ⟨t, "Gender"⟩)

/-- The ten named breed labels recognised by `str_to_breed`. -/
def breedLabels : List String :=
  ["Beetal", "Jamunapari", "Barbari", "Sirohi", "Osmanabadi",
   "BlackBengal", "Kutchi", "Kaghani", "Chegu", "Jakhrana"]

/-- A breed is named when it is not the `Other` fallback. -/
def Breed.isNamed : Breed → Prop
  | .Other _ => False
  | _ => True

instance : DecidablePred Breed.isNamed := by
  intro b
  cases b <;> simp [Breed.isNamed] <;> infer_instance

/-! ## Data model (`models.rs` and the relational shape of the store) -/

/-- `VaccineRef` from `models.rs`: optional identifier plus a name. -/
structure VaccineRef where
  id : Option Int
  name : String
deriving DecidableEq, Repr

/-- `DiseaseRef` from `models.rs`: optional identifier plus a name. -/
structure DiseaseRef where
  id : Option Int
  name : String
deriving DecidableEq, Repr

/-- A row of the `goats` table: breed and gender are stored as text and only
decoded by `row_to_goat`.  The `f64` columns are opaque `Int` payloads. -/
structure GoatRow where
  id : Int
  breed : String
  name : String
  gender : String
  offspring : Int
  cost : Int
  weight : Int
  current_price : Int
  diet : String
  last_bred : Option String
  health_status : String
deriving DecidableEq, Repr

/-- A row of the `vaccines` or `diseases` reference tables. -/
structure RefRow where
  id : Int
  name : String
deriving DecidableEq, Repr

/-- A row of the `goat_vaccines` or `goat_diseases` link tables. -/
structure Link where
  goat_id : Int
  ref_id : Int
deriving DecidableEq, Repr

/-- The relational store.  Modelled from the spec: the schema itself is not in
the repository (migrations are disabled and no `CREATE TABLE` exists), so the
table shapes follow §6 ("a goats table …, a vaccines/diseases table (id,
unique name), and two link tables (goat_id, reference_id)"), with a UNIQUE
constraint on the reference-name columns (§3) and, per §3, no pair-uniqueness
constraint on the link tables and no cascading delete (§4.4; the code also
never enables SQLite foreign-key enforcement). -/
structure Store where
  goats : List GoatRow
  vaccines : List RefRow
  diseases : List RefRow
  goat_vaccines : List Link
  goat_diseases : List Link
  nextGoatId : Int
  nextVaccineId : Int
  nextDiseaseId : Int
deriving DecidableEq, Repr

/-- `Goat` from `models.rs` (= the shape used by `GoatParams` in the shared
crate): decoded enumerations plus the two relation collections. -/
structure Goat where
  id : Option Int
  breed : Breed
  name : String
  gender : Gender
  offspring : Int
  cost : Int
  weight : Int
  current_price : Int
  diet : String
  last_bred : Option String
  health_status : String
  vaccinations : List VaccineRef
  diseases : List DiseaseRef
deriving DecidableEq, Repr

/-- Modelled from the spec: `GoatParams` lives in the missing `shared` crate;
its fields are exactly those the handlers read (`breed`, `name`, `gender`,
the scalar columns, `vaccinations`, `diseases`), per §6's already-deserialized
entity values. -/
structure GoatParams where
  breed : Breed
  name : String
  gender : Gender
  offspring : Int
  cost : Int
  weight : Int
  current_price : Int
  diet : String
  last_bred : Option String
  health_status : String
  vaccinations : List VaccineRef
  diseases : List DiseaseRef
deriving DecidableEq, Repr

/-- The engine-level failure injected at statement index `c`. -/
def dbInjected (c : Nat) : AppError := .DbError (.injected c)

/-- First reference row carrying the given name
(`SELECT id FROM vaccines WHERE name = ?1` via `query_row … .optional()`). -/
def findByName (rows : List RefRow) (name : String) : Option RefRow :=
  (rows.filter (fun r => r.name = name)).head?

/-- Names committed by a concurrent writer between the resolver's lookup and
its insert: each name absent from the table is appended with a fresh id. -/
def applyInterf (rows : List RefRow) (nextId : Int) : List String → List RefRow × Int
  | [] => (rows, nextId)
  | n :: ns =>
    if (rows.filter (fun r => r.name = n)).isEmpty then
      applyInterf (rows ++ [⟨nextId, n⟩]) (nextId + 1) ns
    else
      applyInterf rows nextId ns

/-- `get_or_insert_vaccine` from `src/db.rs`: trust a supplied id; otherwise
look the name up; otherwise insert a new row and return `last_insert_rowid`.
`faults` injects engine failures at the numbered statements (`c` = the SELECT,
`c+1` = the INSERT); `interf` is the set of names a concurrent writer commits
between the lookup and the insert (empty in sequential runs), which is what
can make the INSERT hit the UNIQUE(name) constraint. -/
def get_or_insert_vaccine (faults : List Nat) (interf : List String) (c : Nat)
    (s : Store) (v : VaccineRef) : Except AppError (Store × Int × Nat) :=
  match v.id with
  | some i => .ok (s, i, c)
  | none =>
    if c ∈ faults then .error (dbInjected c)
    else
      match findByName s.vaccines v.name with
      | some r => .ok (s, r.id, c + 1)
      | none =>
        let (rows, nid) := applyInterf s.vaccines s.nextVaccineId interf
        let s := { s with vaccines := rows, nextVaccineId := nid }
        if c + 1 ∈ faults then .error (dbInjected (c + 1))
        else if (s.vaccines.filter (fun r => r.name = v.name)).isEmpty then
          .ok ({ s with vaccines := s.vaccines ++ [⟨s.nextVaccineId, v.name⟩],
                        nextVaccineId := s.nextVaccineId + 1 },
               s.nextVaccineId, c + 2)
        else .error (.DbError (.constraintUnique "vaccines" v.name))

/-- `get_or_insert_disease` from `src/db.rs`: same algorithm over the
`diseases` table. -/
def get_or_insert_disease (faults : List Nat) (interf : List String) (c : Nat)
    (s : Store) (d : DiseaseRef) : Except AppError (Store × Int × Nat) :=
  match d.id with
  | some i => .ok (s, i, c)
  | none =>
    if c ∈ faults then .error (dbInjected c)
    else
      match findByName s.diseases d.name with
      | some r => .ok (s, r.id, c + 1)
      | none =>
        let (rows, nid) := applyInterf s.diseases s.nextDiseaseId interf
        let s := { s with diseases := rows, nextDiseaseId := nid }
        if c + 1 ∈ faults then .error (dbInjected (c + 1))
        else if (s.diseases.filter (fun r => r.name = d.name)).isEmpty then
          .ok ({ s with diseases := s.diseases ++ [⟨s.nextDiseaseId, d.name⟩],
                        nextDiseaseId := s.nextDiseaseId + 1 },
               s.nextDiseaseId, c + 2)
        else .error (.DbError (.constraintUnique "diseases" d.name))

/-! ## Handlers (`src/handlers/goats.rs`) -/

/-- The base row written by `add_goat`'s INSERT, with the generated rowid. -/
def mkGoatRow (gid : Int) (g : GoatParams) : GoatRow :=
  { id := gid, breed := breed_to_str g.breed, name := g.name,
    gender := gender_to_str g.gender, offspring := g.offspring, cost := g.cost,
    weight := g.weight, current_price := g.current_price, diet := g.diet,
    last_bred := g.last_bred, health_status := g.health_status }

/-- The effect of `update_goat`'s UPDATE on one matching row: every scalar
column is overwritten; `id` is untouched and `name` keeps its value (the SET
clause does not include `name` and the row already matches `WHERE name = ?`). -/
def updateRow (r : GoatRow) (g : GoatParams) : GoatRow :=
  { r with breed := breed_to_str g.breed, gender := gender_to_str g.gender,
           offspring := g.offspring, cost := g.cost, weight := g.weight,
           current_price := g.current_price, diet := g.diet,
           last_bred := g.last_bred, health_status := g.health_status }

/-- The vaccine-linking loop shared by `add_goat` and `update_goat`: resolve
each reference, then INSERT the link row.  `update_goat` uses INSERT OR
IGNORE, but with no pair-uniqueness constraint on the link tables (§3 of the
spec) OR IGNORE coincides with plain INSERT, so one function embeds both. -/
def linkVaccines (faults : List Nat) (gid : Int) :
    List VaccineRef → Store → Nat → Except AppError (Store × Nat)
  | [], s, c => .ok (s, c)
  | v :: vs, s, c =>
    match get_or_insert_vaccine faults [] c s v with
    | .error e => .error e
    | .ok (s1, vid, c1) =>
      if c1 ∈ faults then .error (dbInjected c1)
      else linkVaccines faults gid vs
        { s1 with goat_vaccines := s1.goat_vaccines ++ [⟨gid, vid⟩] } (c1 + 1)

/-- The disease-linking loop, mirroring `linkVaccines`. -/
def linkDiseases (faults : List Nat) (gid : Int) :
    List DiseaseRef → Store → Nat → Except AppError (Store × Nat)
  | [], s, c => .ok (s, c)
  | d :: ds, s, c =>
    match get_or_insert_disease faults [] c s d with
    | .error e => .error e
    | .ok (s1, did, c1) =>
      if c1 ∈ faults then .error (dbInjected c1)
      else linkDiseases faults gid ds
        { s1 with goat_diseases := s1.goat_diseases ++ [⟨gid, did⟩] } (c1 + 1)

/-- rusqlite transaction drop semantics: a transaction that errors out before
`commit` is rolled back, so the database keeps its pre-transaction state. -/
def committed {α : Type} (s : Store) : Except AppError (Store × α) → Store
  | .ok (s1, _) => s1
  | .error _ => s

/-- `add_goat` from `src/handlers/goats.rs`: inside one transaction, INSERT
the base row (statement 0), capture `last_insert_rowid`, resolve and link
every vaccination and disease, then commit (the final numbered statement). -/
def add_goat (faults : List Nat) (g : GoatParams) (s : Store) :
    Except AppError (Store × Int) :=
  if 0 ∈ faults then .error (dbInjected 0)
  else
    let gid := s.nextGoatId
    let s1 := { s with goats := s.goats ++ [mkGoatRow gid g],
                       nextGoatId := gid + 1 }
    match linkVaccines faults gid g.vaccinations s1 1 with
    | .error e => .error e
    | .ok (s2, c2) =>
      match linkDiseases faults gid g.diseases s2 c2 with
      | .error e => .error e
      | .ok (s3, c3) =>
        if c3 ∈ faults then .error (dbInjected c3)
        else .ok (s3, gid)

/-- `update_goat` from `src/handlers/goats.rs`: inside one transaction,
UPDATE the base row by name (statement 0); if zero rows were affected, fail
with `InvalidInput`; otherwise DELETE the addressed goat's rows from both
link tables (statements 1 and 2; the subquery takes the first goat with the
name, `LIMIT 1`), fetch that goat's id (statement 3), re-insert the supplied
link set, and commit. -/
def update_goat (faults : List Nat) (g : GoatParams) (s : Store) :
    Except AppError (Store × Unit) :=
  if 0 ∈ faults then .error (dbInjected 0)
  else
    let affected := (s.goats.filter (fun r => r.name = g.name)).length
    let s1 := { s with goats :=
        (s.goats.map (fun (r : GoatRow) =>
          if r.name = g.name then updateRow r g else r)) }
    if affected = 0 then
      .error (.InvalidInput ("No goat found with name " ++ g.name))
    else if 1 ∈ faults then .error (dbInjected 1)
    else
      let gids := ((s1.goats.filter (fun r => r.name = g.name)).map
        (fun r => r.id)).take 1
      let s2 := { s1 with goat_vaccines :=
        s1.goat_vaccines.filter (fun l => ¬ l.goat_id ∈ gids) }
      if 2 ∈ faults then .error (dbInjected 2)
      else
        let s3 := { s2 with goat_diseases :=
          s2.goat_diseases.filter (fun l => ¬ l.goat_id ∈ gids) }
        if 3 ∈ faults then .error (dbInjected 3)
        else
          match gids.head? with
          | none => .error (.DbError .queryReturnedNoRows)
          | some gid =>
            match linkVaccines faults gid g.vaccinations s3 4 with
            | .error e => .error e
            | .ok (s4, c4) =>
              match linkDiseases faults gid g.diseases s4 c4 with
              | .error e => .error e
              | .ok (s5, c5) =>
                if c5 ∈ faults then .error (dbInjected c5)
                else .ok (s5, ())

/-- `delete_goat` from `src/handlers/goats.rs`: a single DELETE of the base
row by name, executed directly on the connection (no transaction, and no
statement touching the link tables); zero affected rows is `InvalidInput`.
Returns the resulting store alongside the handler's result. -/
def delete_goat (faults : List Nat) (name : String) (s : Store) :
    Store × Except AppError Unit :=
  if 0 ∈ faults then (s, .error (dbInjected 0))
  else
    let affected := (s.goats.filter (fun r => r.name = name)).length
    let s1 := { s with goats := s.goats.filter (fun r => ¬ r.name = name) }
    if affected = 0 then
      (s1, .error (.InvalidInput ("No goat found with name " ++ name)))
    else (s1, .ok ())

/-! ## Loading (`src/db.rs`, `DbPool` methods) -/

/-- `row_to_goat` from `src/db.rs`: decode the stored breed and gender text,
propagating parse failures; relation collections start empty. -/
def row_to_goat (r : GoatRow) : Except AppError Goat :=
  match str_to_breed r.breed with
  | .error e => .error e
  | .ok breed =>
    match str_to_gender r.gender with
    | .error e => .error e
    | .ok gender =>
      .ok { id := some r.id, breed, name := r.name, gender,
            offspring := r.offspring, cost := r.cost, weight := r.weight,
            current_price := r.current_price, diet := r.diet,
            last_bred := r.last_bred, health_status := r.health_status,
            vaccinations := [], diseases := [] }

/-- Result rows of `SELECT v.id, v.name FROM vaccines v INNER JOIN
goat_vaccines gv ON v.id = gv.vaccine_id WHERE gv.goat_id = ?1`. -/
def vaccineJoinRows (s : Store) (gid : Int) : List VaccineRef :=
  (s.goat_vaccines.filter (fun l => l.goat_id = gid)).flatMap
    (fun l => (s.vaccines.filter (fun r => r.id = l.ref_id)).map
      (fun r => ⟨some r.id, r.name⟩))

/-- Result rows of the corresponding join over `goat_diseases`/`diseases`. -/
def diseaseJoinRows (s : Store) (gid : Int) : List DiseaseRef :=
  (s.goat_diseases.filter (fun l => l.goat_id = gid)).flatMap
    (fun l => (s.diseases.filter (fun r => r.id = l.ref_id)).map
      (fun r => ⟨some r.id, r.name⟩))

/-- `fetch_vaccines` from `src/db.rs`: iterate the join's rows and collect
them with `.filter_map(Result::ok)`.  `rowFaults` holds the indices of rows
whose retrieval fails at the engine level; the source's `filter_map` DROPS
those rows instead of propagating the error, so the function still returns
`.ok` with the surviving rows. -/
def fetch_vaccines (rowFaults : List Nat) (s : Store) (gid : Int) :
    Except AppError (List VaccineRef) :=
  .ok ((vaccineJoinRows s gid).enum.filterMap
    (fun p => if p.1 ∈ rowFaults then none else some p.2))

/-- `fetch_diseases` from `src/db.rs`, mirroring `fetch_vaccines`. -/
def fetch_diseases (rowFaults : List Nat) (s : Store) (gid : Int) :
    Except AppError (List DiseaseRef) :=
  .ok ((diseaseJoinRows s gid).enum.filterMap
    (fun p => if p.1 ∈ rowFaults then none else some p.2))

/-- `load_goat_details` from `src/db.rs`: `query_row` the base row by id
(no row is `QueryReturnedNoRows`), map it through `row_to_goat` (a mapping
failure is wrapped into `ToSqlConversionFailure` and resurfaces as
`DbError`), then attach both relation collections. -/
def load_goat_details (vacFaults disFaults : List Nat) (s : Store)
    (gid : Int) : Except AppError Goat :=
  match (s.goats.filter (fun r => r.id = gid)).head? with
  | none => .error (.DbError .queryReturnedNoRows)
  | some row =>
    match row_to_goat row with
    | .error e => .error (.DbError (.rowMapping e.message))
    | .ok g =>
      match fetch_vaccines vacFaults s gid with
      | .error e => .error e
      | .ok vs =>
        match fetch_diseases disFaults s gid with
        | .error e => .error e
        | .ok ds => .ok { g with vaccinations := vs, diseases := ds }

/-- Well-formedness of the `vaccines` table under SQLite rowid allocation:
every allocated id is below the next rowid and ids are unique. -/
def VacWF (s : Store) : Prop :=
  (∀ r ∈ s.vaccines, r.id < s.nextVaccineId) ∧
  (s.vaccines.map (fun r => r.id)).Nodup

/-- Well-formedness of the `diseases` table, mirroring `VacWF`. -/
def DisWF (s : Store) : Prop :=
  (∀ r ∈ s.diseases, r.id < s.nextDiseaseId) ∧
  (s.diseases.map (fun r => r.id)).Nodup

/-- Well-formedness maintained by SQLite rowid allocation and the UNIQUE
name constraints: all allocated ids are below the table's next rowid,
reference ids are unique, and reference names are unique in their table. -/
def WF (s : Store) : Prop :=
  (∀ r ∈ s.goats, r.id < s.nextGoatId) ∧
  (∀ l ∈ s.goat_vaccines, l.goat_id < s.nextGoatId) ∧
  (∀ l ∈ s.goat_diseases, l.goat_id < s.nextGoatId) ∧
  VacWF s ∧ DisWF s ∧
  (s.vaccines.map (fun r => r.name)).Nodup ∧
  (s.diseases.map (fun r => r.name)).Nodup

instance (s : Store) : Decidable (VacWF s) := by
  unfold VacWF
  infer_instance

instance (s : Store) : Decidable (DisWF s) := by
  unfold DisWF
  infer_instance

instance (s : Store) : Decidable (WF s) := by
  unfold WF
  infer_instance

/-- First row of a reference table carrying the given id (the row a join or a
`WHERE id = ?` lookup observes; unique when the table's ids are `Nodup`). -/
def findById (rows : List RefRow) (i : Int) : Option RefRow :=
  (rows.filter (fun r => r.id = i)).head?

/-- Name of the reference row with the given id, when present. -/
def refName (rows : List RefRow) (i : Int) : Option String :=
  (findById rows i).map (fun r => r.name)

/-! ## Concrete fixtures used by counterexamples and witnesses -/

/-- A healthy `goats`-table row with the given id and name. -/
def sampleRow (gid : Int) (nm : String) : GoatRow :=
  { id := gid, breed := "Beetal", name := nm, gender := "Male", offspring := 0,
    cost := 0, weight := 0, current_price := 0, diet := "hay",
    last_bred := none, health_status := "healthy" }

/-- Two goats, one shared vaccine, both goats linked to it. -/
def sampleStore : Store :=
  { goats := [sampleRow 1 "Daisy", sampleRow 2 "Bella"],
    vaccines := [⟨1, "A"⟩], diseases := [],
    goat_vaccines := [⟨1, 1⟩, ⟨2, 1⟩], goat_diseases := [],
    nextGoatId := 3, nextVaccineId := 2, nextDiseaseId := 1 }

/-- One goat linked to two vaccines, for the relation-loading claims. -/
def loadStore : Store :=
  { goats := [sampleRow 1 "Daisy"],
    vaccines := [⟨1, "A"⟩, ⟨2, "B"⟩], diseases := [],
    goat_vaccines := [⟨1, 1⟩, ⟨1, 2⟩], goat_diseases := [],
    nextGoatId := 2, nextVaccineId := 3, nextDiseaseId := 1 }

/-- Request payload with the given name and relation collections. -/
def mkParams (nm : String) (vs : List VaccineRef) (ds : List DiseaseRef) :
    GoatParams :=
  { breed := .Beetal, name := nm, gender := .Male, offspring := 0, cost := 0,
    weight := 0, current_price := 0, diet := "hay", last_bred := none,
    health_status := "h", vaccinations := vs, diseases := ds }

/-! ## C8, C9, C10: the enum codecs -/

/-- C8 counterexample: the backend variant of `str_to_gender` accepts the
non-canonical case variant `"MALE"`, and for the failing input `"Frog"` its
parse error carries the lowercased text `"frog"` rather than the offending
input verbatim — so the claim, read over both cited variants, is false. -/
theorem backend_gender_case_cex :
    backend_str_to_gender "MALE" = .ok .Male ∧
    backend_str_to_gender "Frog" = .error (.ParseError ⟨"frog", "Gender"⟩) ∧
    ("frog" : String) ≠ "Frog" := by
  refine ⟨by decide, by decide, by decide⟩

/-- C8 (amended): the main variant (`src/db_helpers.rs`) accepts exactly
`"Male"`/`"Female"` and fails on every other input — case variants
included — with a parse error carrying the input verbatim and the target
enum name `"Gender"`; the backend variant lowercases first, so it accepts
every case variant of the canonical strings and its parse error carries the
lowercased text. -/
theorem str_to_gender_exact : ∀ s : String,
    (str_to_gender "Male" = .ok .Male) ∧
    (str_to_gender "Female" = .ok .Female) ∧
    (s ≠ "Male" → s ≠ "Female" →
      str_to_gender s = .error (.ParseError ⟨s, "Gender"⟩)) ∧
    (rustToLowercase s = "male" → backend_str_to_gender s = .ok .Male) ∧
    (rustToLowercase s = "female" → backend_str_to_gender s = .ok .Female) ∧
    (rustToLowercase s ≠ "male" → rustToLowercase s ≠ "female" →
      backend_str_to_gender s =
        .error (.ParseError ⟨rustToLowercase s, "Gender"⟩)) := by
  intro s
  refine ⟨rfl, rfl, ?_, ?_, ?_, ?_⟩
  · intro h1 h2
    simp [str_to_gender, h1, h2]
  · intro h
    simp [backend_str_to_gender, h]
  · intro h
    simp [backend_str_to_gender, h]
  · intro h1 h2
    simp [backend_str_to_gender, h1, h2]

/-- C8 witness: the theorem evaluated at the concrete input `"male"`, which
the main variant rejects verbatim while the backend variant accepts. -/
theorem str_to_gender_exact_witness :
    str_to_gender "male" = .error (.ParseError ⟨"male", "Gender"⟩) ∧
    backend_str_to_gender "male" = .ok .Male :=
  ⟨(str_to_gender_exact "male").2.2.1 (by decide) (by decide),
   (str_to_gender_exact "male").2.2.2.1 (by decide)⟩

set_option maxHeartbeats 4000000 in
/-- C9: round-trip laws of the breed and gender codecs: decode-after-encode
is the identity on both genders and all ten named breeds; `str_to_breed`
never fails; unrecognized text round-trips through `Other` verbatim; and
decode-encode-decode equals decode on every input text. -/
theorem breed_gender_roundtrip :
    (∀ g : Gender, str_to_gender (gender_to_str g) = .ok g) ∧
    (∀ b : Breed, b.isNamed → str_to_breed (breed_to_str b) = .ok b) ∧
    (∀ s : String, ∃ b, str_to_breed s = .ok b) ∧
    (∀ t : String, t ∉ breedLabels →
      str_to_breed t = .ok (.Other t) ∧ breed_to_str (.Other t) = t) ∧
    (∀ (s : String) (b : Breed), str_to_breed s = .ok b →
      str_to_breed (breed_to_str b) = .ok b) := by
  refine ⟨?_, ?_, ?_, ?_, ?_⟩
  · intro g
    cases g <;> rfl
  · intro b hb
    cases b <;> first | rfl | exact False.elim hb
  · intro s
    unfold str_to_breed
    split_ifs <;> exact ⟨_, rfl⟩
  · intro t ht
    simp only [breedLabels, List.mem_cons, List.not_mem_nil, or_false,
      not_or] at ht
    obtain ⟨h1, h2, h3, h4, h5, h6, h7, h8, h9, h10⟩ := ht
    refine ⟨?_, rfl⟩
    unfold str_to_breed
    rw [if_neg h1, if_neg h2, if_neg h3, if_neg h4, if_neg h5, if_neg h6,
      if_neg h7, if_neg h8, if_neg h9, if_neg h10]
  · intro s b h
    unfold str_to_breed at h
    split_ifs at h with c1 c2 c3 c4 c5 c6 c7 c8 c9 c10 <;>
      injection h with h <;> subst h
    case _ => decide
    case _ => decide
    case _ => decide
    case _ => decide
    case _ => decide
    case _ => decide
    case _ => decide
    case _ => decide
    case _ => decide
    case _ => decide
    case _ =>
      show str_to_breed s = _
      unfold str_to_breed
      rw [if_neg c1, if_neg c2, if_neg c3, if_neg c4, if_neg c5, if_neg c6,
        if_neg c7, if_neg c8, if_neg c9, if_neg c10]

/-- C9 witness: the laws evaluated at the named breed `Sirohi`, at a Gender,
and at the unrecognized text `"Nubian"`. -/
theorem breed_gender_roundtrip_witness :
    str_to_gender (gender_to_str .Female) = .ok .Female ∧
    str_to_breed (breed_to_str .Sirohi) = .ok .Sirohi ∧
    (str_to_breed "Nubian" = .ok (.Other "Nubian") ∧
      breed_to_str (.Other "Nubian") = "Nubian") :=
  ⟨breed_gender_roundtrip.1 .Female,
   breed_gender_roundtrip.2.1 .Sirohi (by decide),
   breed_gender_roundtrip.2.2.2.1 "Nubian" (by decide)⟩

/-- C10: the breed encoder is not injective and decode-after-encode is not
the identity on all of `Breed`: `Other "Beetal"` encodes to the named label
`"Beetal"`, which decodes to the named variant `Beetal`, not back to
`Other "Beetal"`. -/
theorem breed_encode_not_injective :
    breed_to_str (.Other "Beetal") = "Beetal" ∧
    breed_to_str .Beetal = "Beetal" ∧
    (Breed.Other "Beetal") ≠ .Beetal ∧
    str_to_breed (breed_to_str (.Other "Beetal")) = .ok .Beetal ∧
    str_to_breed (breed_to_str (.Other "Beetal")) ≠ .ok (.Other "Beetal") := by
  refine ⟨rfl, rfl, by decide, by decide, by decide⟩

/-! ## C2: update/delete on an absent addressing key -/

/-- C2 counterexample: on a store with no goat named `"Nope"`, both
`update_goat` and `delete_goat` fail with `AppError::InvalidInput` — a value
in §7's `InvalidInputError` category, not the `NotFoundError` category the
claim names (the code's `AppError` has no `NotFound` variant at all). -/
theorem absent_key_error_category_cex :
    update_goat [] (mkParams "Nope" [] []) sampleStore =
      .error (.InvalidInput "No goat found with name Nope") ∧
    (delete_goat [] "Nope" sampleStore).2 =
      .error (.InvalidInput "No goat found with name Nope") ∧
    specCategory (.InvalidInput "No goat found with name Nope") =
      .invalidInputError ∧
    SpecErrorCategory.invalidInputError ≠ .notFoundError := by
  refine ⟨by decide, by decide, rfl, by decide⟩

/-- C2 (amended): for every addressing key (goat name) absent from the
store, `update_goat` and `delete_goat` both fail — with
`AppError::InvalidInput` carrying `"No goat found with name …"` rather than
a NotFound-category error — never silently create a record or succeed as a
no-op, and leave the store completely unchanged. -/
theorem absent_key_fails_unchanged :
    ∀ (s : Store) (g : GoatParams),
    (∀ r ∈ s.goats, r.name ≠ g.name) →
    update_goat [] g s =
      .error (.InvalidInput ("No goat found with name " ++ g.name)) ∧
    committed s (update_goat [] g s) = s ∧
    (delete_goat [] g.name s).2 =
      .error (.InvalidInput ("No goat found with name " ++ g.name)) ∧
    (delete_goat [] g.name s).1 = s := by
  intro s g habs
  have hfil : s.goats.filter (fun r => r.name = g.name) = [] := by
    rw [List.filter_eq_nil_iff]
    intro r hr
    simpa using habs r hr
  have hkeep : s.goats.filter (fun r => !decide (r.name = g.name)) = s.goats := by
    rw [List.filter_eq_self]
    intro r hr
    simp [habs r hr]
  have hupd : update_goat [] g s =
      .error (.InvalidInput ("No goat found with name " ++ g.name)) := by
    unfold update_goat
    simp [hfil]
  have hdel : delete_goat [] g.name s =
      (s, .error (.InvalidInput ("No goat found with name " ++ g.name))) := by
    unfold delete_goat
    simp [hfil, hkeep]
  refine ⟨hupd, ?_, ?_, ?_⟩
  · rw [hupd]; rfl
  · rw [hdel]
  · rw [hdel]

/-- C2 witness: the amended behaviour at the concrete absent name `"Nope"`
against `sampleStore`. -/
theorem absent_key_fails_unchanged_witness :
    update_goat [] (mkParams "Nope" [] []) sampleStore =
      .error (.InvalidInput ("No goat found with name " ++ "Nope")) ∧
    committed sampleStore (update_goat [] (mkParams "Nope" [] []) sampleStore) =
      sampleStore ∧
    (delete_goat [] (mkParams "Nope" [] []).name sampleStore).2 =
      .error (.InvalidInput ("No goat found with name " ++ "Nope")) ∧
    (delete_goat [] (mkParams "Nope" [] []).name sampleStore).1 = sampleStore :=
  absent_key_fails_unchanged sampleStore (mkParams "Nope" [] []) (by decide)

/-! ## C3: delete leaves the link tables untouched -/

/-- C3: against `sampleStore` (goats Daisy=1 and Bella=2, both linked to the
shared vaccine 1), deleting Daisy succeeds and removes only her base row:
her link row `(1, 1)` stays behind orphaned in `goat_vaccines` — refuting
the claim's "removes all of its rows in both link tables" — while the shared
vaccine row survives and is still loadable by Bella, as the claim says. -/
theorem delete_goat_leaves_link_rows :
    (delete_goat [] "Daisy" sampleStore).2 = .ok () ∧
    (delete_goat [] "Daisy" sampleStore).1.goats = [sampleRow 2 "Bella"] ∧
    (delete_goat [] "Daisy" sampleStore).1.goat_vaccines =
      [⟨1, 1⟩, ⟨2, 1⟩] ∧
    (delete_goat [] "Daisy" sampleStore).1.vaccines = [⟨1, "A"⟩] ∧
    fetch_vaccines [] (delete_goat [] "Daisy" sampleStore).1 2 =
      .ok [⟨some 1, "A"⟩] := by
  refine ⟨by decide, by decide, by decide, by decide, by decide⟩

/-! ## C4: relation loading silently drops failed rows -/

/-- C4: against `loadStore` (goat 1 linked to vaccines A and B), the join
produces two relation rows and a fault-free load returns both; but when the
engine-level read of the second relation row fails, `fetch_vaccines`'s
`.filter_map(Result::ok)` silently drops it and `load_goat_details` returns
`Ok` with a partially loaded collection instead of surfacing the error. -/
theorem load_goat_drops_failed_relation_row :
    vaccineJoinRows loadStore 1 = [⟨some 1, "A"⟩, ⟨some 2, "B"⟩] ∧
    load_goat_details [] [] loadStore 1 =
      .ok { id := some 1, breed := .Beetal, name := "Daisy", gender := .Male,
            offspring := 0, cost := 0, weight := 0, current_price := 0,
            diet := "hay", last_bred := none, health_status := "healthy",
            vaccinations := [⟨some 1, "A"⟩, ⟨some 2, "B"⟩], diseases := [] } ∧
    load_goat_details [1] [] loadStore 1 =
      .ok { id := some 1, breed := .Beetal, name := "Daisy", gender := .Male,
            offspring := 0, cost := 0, weight := 0, current_price := 0,
            diet := "hay", last_bred := none, health_status := "healthy",
            vaccinations := [⟨some 1, "A"⟩], diseases := [] } := by
  refine ⟨by decide, by decide, by decide⟩

/-! ## C5 and C6: the reference resolver -/

/-- Case analysis of the fault-free resolver: trusted id, found-by-name, and
fresh-insert behaviours of `get_or_insert_vaccine` / `get_or_insert_disease`. -/
theorem get_or_insert_cases :
    ∀ (s : Store) (v : VaccineRef) (d : DiseaseRef) (c : Nat),
    (∀ i, v.id = some i → get_or_insert_vaccine [] [] c s v = .ok (s, i, c)) ∧
    (∀ r, v.id = none → findByName s.vaccines v.name = some r →
        get_or_insert_vaccine [] [] c s v = .ok (s, r.id, c + 1)) ∧
    (v.id = none → findByName s.vaccines v.name = none →
        get_or_insert_vaccine [] [] c s v =
          .ok ({ s with vaccines := s.vaccines ++ [⟨s.nextVaccineId, v.name⟩],
                        nextVaccineId := s.nextVaccineId + 1 },
               s.nextVaccineId, c + 2)) ∧
    (∀ i, d.id = some i → get_or_insert_disease [] [] c s d = .ok (s, i, c)) ∧
    (∀ r, d.id = none → findByName s.diseases d.name = some r →
        get_or_insert_disease [] [] c s d = .ok (s, r.id, c + 1)) ∧
    (d.id = none → findByName s.diseases d.name = none →
        get_or_insert_disease [] [] c s d =
          .ok ({ s with diseases := s.diseases ++ [⟨s.nextDiseaseId, d.name⟩],
                        nextDiseaseId := s.nextDiseaseId + 1 },
               s.nextDiseaseId, c + 2)) := by
  intro s v d c
  refine ⟨?_, ?_, ?_, ?_, ?_, ?_⟩
  · intro i hid
    unfold get_or_insert_vaccine
    rw [hid]
  · intro r hid hfind
    unfold get_or_insert_vaccine
    rw [hid]
    simp [hfind]
  · intro hid hfind
    have hfil : s.vaccines.filter (fun r => r.name = v.name) = [] := by
      have := hfind
      unfold findByName at this
      exact List.head?_eq_none_iff.mp this
    unfold get_or_insert_vaccine
    rw [hid]
    simp [hfind, applyInterf, hfil]
  · intro i hid
    unfold get_or_insert_disease
    rw [hid]
  · intro r hid hfind
    unfold get_or_insert_disease
    rw [hid]
    simp [hfind]
  · intro hid hfind
    have hfil : s.diseases.filter (fun r => r.name = d.name) = [] := by
      have := hfind
      unfold findByName at this
      exact List.head?_eq_none_iff.mp this
    unfold get_or_insert_disease
    rw [hid]
    simp [hfind, applyInterf, hfil]

/-- C5: the resolver's algorithm, in a fault-free sequential run: a supplied
identifier is returned immediately with no store access and no existence
check; otherwise a row with an exactly matching name yields that row's
identifier and the store is unchanged (zero new reference rows); otherwise
exactly one new row with that name is inserted and its newly assigned
identifier is returned.  Both the vaccine and the disease resolver. -/
theorem get_or_insert_resolves :
    ∀ (s : Store) (v : VaccineRef) (d : DiseaseRef) (c : Nat),
    (∀ i, v.id = some i → get_or_insert_vaccine [] [] c s v = .ok (s, i, c)) ∧
    (∀ r, v.id = none → findByName s.vaccines v.name = some r →
        get_or_insert_vaccine [] [] c s v = .ok (s, r.id, c + 1)) ∧
    (v.id = none → findByName s.vaccines v.name = none →
        get_or_insert_vaccine [] [] c s v =
          .ok ({ s with vaccines := s.vaccines ++ [⟨s.nextVaccineId, v.name⟩],
                        nextVaccineId := s.nextVaccineId + 1 },
               s.nextVaccineId, c + 2)) ∧
    (∀ i, d.id = some i → get_or_insert_disease [] [] c s d = .ok (s, i, c)) ∧
    (∀ r, d.id = none → findByName s.diseases d.name = some r →
        get_or_insert_disease [] [] c s d = .ok (s, r.id, c + 1)) ∧
    (d.id = none → findByName s.diseases d.name = none →
        get_or_insert_disease [] [] c s d =
          .ok ({ s with diseases := s.diseases ++ [⟨s.nextDiseaseId, d.name⟩],
                        nextDiseaseId := s.nextDiseaseId + 1 },
               s.nextDiseaseId, c + 2)) :=
  get_or_insert_cases

/-- C5 witness: resolving a second reference to the already-known name
`"A"` against `sampleStore` creates zero new reference rows (the store is
returned unchanged) and reuses identifier 1. -/
theorem get_or_insert_resolves_witness :
    get_or_insert_vaccine [] [] 0 sampleStore ⟨none, "A"⟩ =
      .ok (sampleStore, 1, 1) :=
  (get_or_insert_resolves sampleStore ⟨none, "A"⟩ ⟨none, "D"⟩ 0).2.1
    ⟨1, "A"⟩ rfl (by decide)

/-- `applyInterf` only ever appends rows to the table. -/
theorem applyInterf_append :
    ∀ (ns : List String) (rows : List RefRow) (nid : Int),
    ∃ t, (applyInterf rows nid ns).1 = rows ++ t := by
  intro ns
  induction ns with
  | nil => exact fun rows nid => ⟨[], by simp [applyInterf]⟩
  | cons n ns ih =>
    intro rows nid
    unfold applyInterf
    by_cases h : (rows.filter (fun r => r.name = n)).isEmpty
    · rw [if_pos h]
      obtain ⟨t, ht⟩ := ih (rows ++ [⟨nid, n⟩]) (nid + 1)
      exact ⟨⟨nid, n⟩ :: t, by rw [ht, List.append_assoc]; rfl⟩
    · rw [if_neg h]
      exact ih rows nid

/-- After `applyInterf`, every interfering name has a row in the table. -/
theorem applyInterf_mem :
    ∀ (ns : List String) (rows : List RefRow) (nid : Int) (n : String),
    n ∈ ns → ∃ r ∈ (applyInterf rows nid ns).1, r.name = n := by
  intro ns
  induction ns with
  | nil => intro rows nid n hn; cases hn
  | cons m ns ih =>
    intro rows nid n hn
    unfold applyInterf
    rcases List.mem_cons.mp hn with heq | hmem
    · subst heq
      by_cases h : (rows.filter (fun r => r.name = n)).isEmpty
      · rw [if_pos h]
        obtain ⟨t, ht⟩ := applyInterf_append ns (rows ++ [⟨nid, n⟩]) (nid + 1)
        refine ⟨⟨nid, n⟩, ?_, rfl⟩
        rw [ht]
        exact List.mem_append_left _ (List.mem_append_right _ (by simp))
      · rw [if_neg h]
        have hne : rows.filter (fun r => r.name = n) ≠ [] := by
          intro hnil
          rw [hnil] at h
          exact h rfl
        obtain ⟨r, hr⟩ := List.exists_mem_of_ne_nil _ hne
        have hr2 := List.mem_filter.mp hr
        obtain ⟨t, ht⟩ := applyInterf_append ns rows nid
        refine ⟨r, ?_, by simpa using hr2.2⟩
        rw [ht]
        exact List.mem_append_left _ hr2.1
    · by_cases h : (rows.filter (fun r => r.name = m)).isEmpty
      · rw [if_pos h]
        exact ih (rows ++ [⟨nid, m⟩]) (nid + 1) n hmem
      · rw [if_neg h]
        exact ih rows nid n hmem

/-- C6 counterexample: with an empty interference-free lookup (name `"X"`
absent from `sampleStore`) and a concurrent writer committing `"X"` between
the resolver's lookup and its insert, the resolver returns the
uniqueness-constraint failure to the caller instead of retrying the lookup
and returning the now-existing identifier. -/
theorem resolver_conflict_cex :
    get_or_insert_vaccine [] ["X"] 0 sampleStore ⟨none, "X"⟩ =
      .error (.DbError (.constraintUnique "vaccines" "X")) := by
  decide

/-- C6 (amended): when a concurrent writer inserts the same new name between
the resolver's failed lookup and its insert, the insert's
uniqueness-constraint violation is propagated to the caller unchanged — the
resolver performs no retry (duplicate avoidance relies on writer
serialization instead).  Both the vaccine and the disease resolver. -/
theorem resolver_conflict_propagates :
    ∀ (s : Store) (v : VaccineRef) (d : DiseaseRef) (names : List String)
      (c : Nat),
    (v.id = none → findByName s.vaccines v.name = none → v.name ∈ names →
      get_or_insert_vaccine [] names c s v =
        .error (.DbError (.constraintUnique "vaccines" v.name))) ∧
    (d.id = none → findByName s.diseases d.name = none → d.name ∈ names →
      get_or_insert_disease [] names c s d =
        .error (.DbError (.constraintUnique "diseases" d.name))) := by
  intro s v d names c
  constructor
  · intro hid hfind hmem
    obtain ⟨r, hr, hrn⟩ :=
      applyInterf_mem names s.vaccines s.nextVaccineId v.name hmem
    unfold get_or_insert_vaccine
    rw [hid]
    have hfil :
        ((applyInterf s.vaccines s.nextVaccineId names).1.filter
          (fun q => q.name = v.name)).isEmpty = false := by
      have : r ∈ (applyInterf s.vaccines s.nextVaccineId names).1.filter
          (fun q => q.name = v.name) :=
        List.mem_filter.mpr ⟨hr, by simp [hrn]⟩
      rcases hfe : (applyInterf s.vaccines s.nextVaccineId names).1.filter
          (fun q => q.name = v.name) with _ | _
      · rw [hfe] at this; cases this
      · rw [hfe]; rfl
    simp [hfind, hfil]
  · intro hid hfind hmem
    obtain ⟨r, hr, hrn⟩ :=
      applyInterf_mem names s.diseases s.nextDiseaseId d.name hmem
    unfold get_or_insert_disease
    rw [hid]
    have hfil :
        ((applyInterf s.diseases s.nextDiseaseId names).1.filter
          (fun q => q.name = d.name)).isEmpty = false := by
      have : r ∈ (applyInterf s.diseases s.nextDiseaseId names).1.filter
          (fun q => q.name = d.name) :=
        List.mem_filter.mpr ⟨hr, by simp [hrn]⟩
      rcases hfe : (applyInterf s.diseases s.nextDiseaseId names).1.filter
          (fun q => q.name = d.name) with _ | _
      · rw [hfe] at this; cases this
      · rw [hfe]; rfl
    simp [hfind, hfil]

/-! ## Helper lemmas for the transactional handlers -/

/-- In a table with unique ids, filtering by a member's id yields exactly
that member. -/
theorem filter_id_eq_of_nodup :
    ∀ (rows : List RefRow), (rows.map (fun r => r.id)).Nodup →
    ∀ r ∈ rows, rows.filter (fun q => q.id = r.id) = [r] := by
  intro rows
  induction rows with
  | nil => intro _ r hr; cases hr
  | cons a rows ih =>
    intro hnd r hr
    rw [List.map_cons, List.nodup_cons] at hnd
    rcases List.mem_cons.mp hr with heq | hmem
    · subst heq
      rw [List.filter_cons_of_pos (by simp)]
      have : rows.filter (fun q => q.id = r.id) = [] := by
        rw [List.filter_eq_nil_iff]
        intro q hq hqid
        exact hnd.1 (List.mem_map.mpr ⟨q, hq, by simpa using hqid.symm⟩)
      rw [this]
    · have hne : ¬ a.id = r.id := by
        intro hca
        exact hnd.1 (List.mem_map.mpr ⟨r, hmem, hca.symm⟩)
      rw [List.filter_cons_of_neg (by simpa using hne)]
      exact ih hnd.2 r hmem

/-- In a table with unique ids, `findById` at a member's id returns it. -/
theorem findById_of_mem (rows : List RefRow)
    (hnd : (rows.map (fun r => r.id)).Nodup) (r : RefRow) (hr : r ∈ rows) :
    findById rows r.id = some r := by
  unfold findById
  rw [filter_id_eq_of_nodup rows hnd r hr]
  rfl

/-- A successful `findById` is stable under appending rows to the table. -/
theorem findById_append (rows t : List RefRow) (i : Int) (r : RefRow)
    (h : findById rows i = some r) : findById (rows ++ t) i = some r := by
  unfold findById at h ⊢
  rw [List.filter_append]
  rcases hfe : rows.filter (fun q => q.id = i) with _ | ⟨a, l⟩
  · rw [hfe] at h; cases h
  · rw [hfe] at h
    simp only [List.head?_cons, Option.some.injEq] at h
    subst h
    rw [hfe]
    rfl

/-- The fault-free vaccine resolver on an id-less reference: it succeeds,
touches only the `vaccines` table (append-only), preserves the table's
well-formedness, and returns an identifier that names the reference. -/
theorem get_or_insert_vaccine_total (c : Nat) (s : Store) (v : VaccineRef)
    (hid : v.id = none) (hwf : VacWF s) :
    ∃ s1 vid c1,
      get_or_insert_vaccine [] [] c s v = .ok (s1, vid, c1) ∧
      refName s1.vaccines vid = some v.name ∧
      vid < s1.nextVaccineId ∧
      VacWF s1 ∧
      (∃ t, s1.vaccines = s.vaccines ++ t) ∧
      s.nextVaccineId ≤ s1.nextVaccineId ∧
      s1.goats = s.goats ∧ s1.goat_vaccines = s.goat_vaccines ∧
      s1.goat_diseases = s.goat_diseases ∧ s1.diseases = s.diseases ∧
      s1.nextGoatId = s.nextGoatId ∧ s1.nextDiseaseId = s.nextDiseaseId := by
  rcases hfind : findByName s.vaccines v.name with _ | r
  · -- not found: a fresh row is inserted
    have hres := (get_or_insert_cases s v ⟨none, "D"⟩ c).2.2.1 hid hfind
    refine ⟨_, s.nextVaccineId, c + 2, hres, ?_, by simp, ?_, ⟨_, rfl⟩,
      by simp, rfl, rfl, rfl, rfl, rfl, rfl⟩
    · unfold refName
      have hold : s.vaccines.filter
          (fun q => q.id = s.nextVaccineId) = [] := by
        rw [List.filter_eq_nil_iff]
        intro q hq hqid
        have := hwf.1 q hq
        simp only [decide_eq_true_eq] at hqid
        omega
      unfold findById
      rw [List.filter_append, hold]
      simp
    · constructor
      · intro r hr
        simp only [List.mem_append, List.mem_singleton] at hr
        rcases hr with hr | hr
        · have := hwf.1 r hr
          simp only
          omega
        · subst hr
          simp
      · simp only [List.map_append]
        rw [List.nodup_append]
        refine ⟨hwf.2, by simp, ?_⟩
        intro i hi
        have : ∃ q ∈ s.vaccines, q.id = i := by
          rcases List.mem_map.mp hi with ⟨q, hq, hqe⟩
          exact ⟨q, hq, hqe⟩
        obtain ⟨q, hq, hqe⟩ := this
        have := hwf.1 q hq
        simp only [List.map_cons, List.map_nil, List.mem_singleton]
        intro hcontra
        rw [hcontra] at hqe
        omega
  · -- found by name
    have hres := (get_or_insert_cases s v ⟨none, "D"⟩ c).2.1 r hid hfind
    have hrmem : r ∈ s.vaccines ∧ r.name = v.name := by
      unfold findByName at hfind
      have hhead := List.mem_of_mem_head? (by rw [hfind]; rfl)
      have := List.mem_filter.mp hhead
      exact ⟨this.1, by simpa using this.2⟩
    refine ⟨s, r.id, c + 1, hres, ?_, hwf.1 r hrmem.1, hwf, ⟨[], by simp⟩,
      le_refl _, rfl, rfl, rfl, rfl, rfl, rfl⟩
    unfold refName
    rw [findById_of_mem s.vaccines hwf.2 r hrmem.1]
    simp [hrmem.2]

/-- The fault-free disease resolver on an id-less reference, mirroring
`get_or_insert_vaccine_total`. -/
theorem get_or_insert_disease_total (c : Nat) (s : Store) (d : DiseaseRef)
    (hid : d.id = none) (hwf : DisWF s) :
    ∃ s1 did c1,
      get_or_insert_disease [] [] c s d = .ok (s1, did, c1) ∧
      refName s1.diseases did = some d.name ∧
      did < s1.nextDiseaseId ∧
      DisWF s1 ∧
      (∃ t, s1.diseases = s.diseases ++ t) ∧
      s.nextDiseaseId ≤ s1.nextDiseaseId ∧
      s1.goats = s.goats ∧ s1.goat_vaccines = s.goat_vaccines ∧
      s1.goat_diseases = s.goat_diseases ∧ s1.vaccines = s.vaccines ∧
      s1.nextGoatId = s.nextGoatId ∧ s1.nextVaccineId = s.nextVaccineId := by
  rcases hfind : findByName s.diseases d.name with _ | r
  · have hres := (get_or_insert_cases s ⟨none, "V"⟩ d c).2.2.2.2.2 hid hfind
    refine ⟨_, s.nextDiseaseId, c + 2, hres, ?_, by simp, ?_, ⟨_, rfl⟩,
      by simp, rfl, rfl, rfl, rfl, rfl, rfl⟩
    · unfold refName
      have hold : s.diseases.filter
          (fun q => q.id = s.nextDiseaseId) = [] := by
        rw [List.filter_eq_nil_iff]
        intro q hq hqid
        have := hwf.1 q hq
        simp only [decide_eq_true_eq] at hqid
        omega
      unfold findById
      rw [List.filter_append, hold]
      simp
    · constructor
      · intro r hr
        simp only [List.mem_append, List.mem_singleton] at hr
        rcases hr with hr | hr
        · have := hwf.1 r hr
          simp only
          omega
        · subst hr
          simp
      · simp only [List.map_append]
        rw [List.nodup_append]
        refine ⟨hwf.2, by simp, ?_⟩
        intro i hi
        have : ∃ q ∈ s.diseases, q.id = i := by
          rcases List.mem_map.mp hi with ⟨q, hq, hqe⟩
          exact ⟨q, hq, hqe⟩
        obtain ⟨q, hq, hqe⟩ := this
        have := hwf.1 q hq
        simp only [List.map_cons, List.map_nil, List.mem_singleton]
        intro hcontra
        rw [hcontra] at hqe
        omega
  · have hres := (get_or_insert_cases s ⟨none, "V"⟩ d c).2.2.2.2.1 r hid hfind
    have hrmem : r ∈ s.diseases ∧ r.name = d.name := by
      unfold findByName at hfind
      have hhead := List.mem_of_mem_head? (by rw [hfind]; rfl)
      have := List.mem_filter.mp hhead
      exact ⟨this.1, by simpa using this.2⟩
    refine ⟨s, r.id, c + 1, hres, ?_, hwf.1 r hrmem.1, hwf, ⟨[], by simp⟩,
      le_refl _, rfl, rfl, rfl, rfl, rfl, rfl⟩
    unfold refName
    rw [findById_of_mem s.diseases hwf.2 r hrmem.1]
    simp [hrmem.2]

/-- A successful vaccine resolution, under any fault set and no concurrent
interference, leaves everything but the `vaccines` table and its rowid
counter unchanged. -/
theorem get_or_insert_vaccine_frame
    (faults : List Nat) (c : Nat) (s : Store) (v : VaccineRef)
    (s1 : Store) (vid : Int) (c1 : Nat)
    (h : get_or_insert_vaccine faults [] c s v = .ok (s1, vid, c1)) :
    s1.goats = s.goats ∧ s1.goat_vaccines = s.goat_vaccines ∧
    s1.goat_diseases = s.goat_diseases ∧ s1.diseases = s.diseases ∧
    s1.nextGoatId = s.nextGoatId ∧ s1.nextDiseaseId = s.nextDiseaseId := by
  unfold get_or_insert_vaccine at h
  rcases hv : v.id with _ | i <;> rw [hv] at h
  · by_cases h1 : c ∈ faults
    · rw [if_pos h1] at h; cases h
    · rw [if_neg h1] at h
      rcases hfind : findByName s.vaccines v.name with _ | r <;>
        rw [hfind] at h
      · simp only [applyInterf] at h
        by_cases h2 : c + 1 ∈ faults
        · rw [if_pos h2] at h; cases h
        · rw [if_neg h2] at h
          by_cases h3 :
              (s.vaccines.filter (fun r => r.name = v.name)).isEmpty
          · rw [if_pos h3] at h
            simp only [Except.ok.injEq, Prod.mk.injEq] at h
            obtain ⟨hs, _, _⟩ := h
            subst hs
            exact ⟨rfl, rfl, rfl, rfl, rfl, rfl⟩
          · rw [if_neg h3] at h; cases h
      · simp only [Except.ok.injEq, Prod.mk.injEq] at h
        obtain ⟨hs, _, _⟩ := h
        subst hs
        exact ⟨rfl, rfl, rfl, rfl, rfl, rfl⟩
  · simp only [Except.ok.injEq, Prod.mk.injEq] at h
    obtain ⟨hs, _, _⟩ := h
    subst hs
    exact ⟨rfl, rfl, rfl, rfl, rfl, rfl⟩

/-- A successful disease resolution, under any fault set and no concurrent
interference, leaves everything but the `diseases` table and its rowid
counter unchanged. -/
theorem get_or_insert_disease_frame
    (faults : List Nat) (c : Nat) (s : Store) (d : DiseaseRef)
    (s1 : Store) (did : Int) (c1 : Nat)
    (h : get_or_insert_disease faults [] c s d = .ok (s1, did, c1)) :
    s1.goats = s.goats ∧ s1.goat_vaccines = s.goat_vaccines ∧
    s1.goat_diseases = s.goat_diseases ∧ s1.vaccines = s.vaccines ∧
    s1.nextGoatId = s.nextGoatId ∧ s1.nextVaccineId = s.nextVaccineId := by
  unfold get_or_insert_disease at h
  rcases hd : d.id with _ | i <;> rw [hd] at h
  · by_cases h1 : c ∈ faults
    · rw [if_pos h1] at h; cases h
    · rw [if_neg h1] at h
      rcases hfind : findByName s.diseases d.name with _ | r <;>
        rw [hfind] at h
      · simp only [applyInterf] at h
        by_cases h2 : c + 1 ∈ faults
        · rw [if_pos h2] at h; cases h
        · rw [if_neg h2] at h
          by_cases h3 :
              (s.diseases.filter (fun r => r.name = d.name)).isEmpty
          · rw [if_pos h3] at h
            simp only [Except.ok.injEq, Prod.mk.injEq] at h
            obtain ⟨hs, _, _⟩ := h
            subst hs
            exact ⟨rfl, rfl, rfl, rfl, rfl, rfl⟩
          · rw [if_neg h3] at h; cases h
      · simp only [Except.ok.injEq, Prod.mk.injEq] at h
        obtain ⟨hs, _, _⟩ := h
        subst hs
        exact ⟨rfl, rfl, rfl, rfl, rfl, rfl⟩
  · simp only [Except.ok.injEq, Prod.mk.injEq] at h
    obtain ⟨hs, _, _⟩ := h
    subst hs
    exact ⟨rfl, rfl, rfl, rfl, rfl, rfl⟩

/-- A successful run of the vaccine-linking loop appends exactly one link row
per input reference, all carrying the addressed goat id, and touches neither
the goats table, the disease side, nor the goat-rowid counter. -/
theorem linkVaccines_ok (faults : List Nat) (gid : Int) :
    ∀ (vs : List VaccineRef) (s : Store) (c : Nat) (s' : Store) (c' : Nat),
    linkVaccines faults gid vs s c = .ok (s', c') →
    ∃ nv, s'.goat_vaccines = s.goat_vaccines ++ nv ∧
      nv.length = vs.length ∧ (∀ l ∈ nv, l.goat_id = gid) ∧
      s'.goats = s.goats ∧ s'.goat_diseases = s.goat_diseases ∧
      s'.nextGoatId = s.nextGoatId ∧ s'.diseases = s.diseases ∧
      s'.nextDiseaseId = s.nextDiseaseId := by
  intro vs
  induction vs with
  | nil =>
    intro s c s' c' h
    unfold linkVaccines at h
    cases Except.ok.inj h
    exact ⟨[], by simp, rfl, by simp, rfl, rfl, rfl, rfl, rfl⟩
  | cons v vs ih =>
    intro s c s' c' h
    unfold linkVaccines at h
    rcases hres : get_or_insert_vaccine faults [] c s v with _ | ⟨s1, vid, c1⟩ <;>
      rw [hres] at h
    · cases h
    · simp only at h
      split_ifs at h with hc
      obtain ⟨fr1, fr2, fr3, fr4, fr5, fr6⟩ :=
        get_or_insert_vaccine_frame faults c s v s1 vid c1 hres
      obtain ⟨nv, h1, h2, h3, h4, h5, h6, h7, h8⟩ := ih _ _ _ _ h
      refine ⟨⟨gid, vid⟩ :: nv, ?_, by simpa using h2, ?_, ?_, ?_, ?_, ?_, ?_⟩
      · rw [h1]
        simp only [fr2, List.append_assoc, List.singleton_append]
      · intro l hl
        rcases List.mem_cons.mp hl with hl | hl
        · rw [hl]
        · exact h3 l hl
      · rw [h4]; exact fr1
      · rw [h5]; exact fr3
      · rw [h6]; exact fr5
      · rw [h7]; exact fr4
      · rw [h8]; exact fr6

/-- A successful run of the disease-linking loop, mirroring
`linkVaccines_ok`. -/
theorem linkDiseases_ok (faults : List Nat) (gid : Int) :
    ∀ (ds : List DiseaseRef) (s : Store) (c : Nat) (s' : Store) (c' : Nat),
    linkDiseases faults gid ds s c = .ok (s', c') →
    ∃ nd, s'.goat_diseases = s.goat_diseases ++ nd ∧
      nd.length = ds.length ∧ (∀ l ∈ nd, l.goat_id = gid) ∧
      s'.goats = s.goats ∧ s'.goat_vaccines = s.goat_vaccines ∧
      s'.nextGoatId = s.nextGoatId ∧ s'.vaccines = s.vaccines ∧
      s'.nextVaccineId = s.nextVaccineId := by
  intro ds
  induction ds with
  | nil =>
    intro s c s' c' h
    unfold linkDiseases at h
    cases Except.ok.inj h
    exact ⟨[], by simp, rfl, by simp, rfl, rfl, rfl, rfl, rfl⟩
  | cons d ds ih =>
    intro s c s' c' h
    unfold linkDiseases at h
    rcases hres : get_or_insert_disease faults [] c s d with _ | ⟨s1, did, c1⟩ <;>
      rw [hres] at h
    · cases h
    · simp only at h
      split_ifs at h with hc
      obtain ⟨fr1, fr2, fr3, fr4, fr5, fr6⟩ :=
        get_or_insert_disease_frame faults c s d s1 did c1 hres
      obtain ⟨nd, h1, h2, h3, h4, h5, h6, h7, h8⟩ := ih _ _ _ _ h
      refine ⟨⟨gid, did⟩ :: nd, ?_, by simpa using h2, ?_, ?_, ?_, ?_, ?_, ?_⟩
      · rw [h1]
        simp only [fr3, List.append_assoc, List.singleton_append]
      · intro l hl
        rcases List.mem_cons.mp hl with hl | hl
        · rw [hl]
        · exact h3 l hl
      · rw [h4]; exact fr1
      · rw [h5]; exact fr2
      · rw [h6]; exact fr5
      · rw [h7]; exact fr4
      · rw [h8]; exact fr6

/-- The fault-free vaccine-linking loop on id-less references with pairwise
distinct names: it succeeds and appends exactly one link row per reference,
all for the addressed goat, with pairwise distinct reference ids, each link
naming its reference in the final `vaccines` table. -/
theorem linkVaccines_exact (gid : Int) :
    ∀ (vs : List VaccineRef) (s : Store) (c : Nat),
    (∀ v ∈ vs, v.id = none) →
    ((vs.map fun v => v.name).Nodup) →
    VacWF s →
    ∃ s' c' nv,
      linkVaccines [] gid vs s c = .ok (s', c') ∧
      s'.goat_vaccines = s.goat_vaccines ++ nv ∧
      (∀ l ∈ nv, l.goat_id = gid) ∧
      nv.map (fun l => refName s'.vaccines l.ref_id) =
        vs.map (fun v => some v.name) ∧
      (nv.map fun l => l.ref_id).Nodup ∧
      VacWF s' ∧
      (∃ t, s'.vaccines = s.vaccines ++ t) ∧
      s'.goats = s.goats ∧ s'.goat_diseases = s.goat_diseases ∧
      s'.nextGoatId = s.nextGoatId ∧ s'.diseases = s.diseases ∧
      s'.nextDiseaseId = s.nextDiseaseId := by
  intro vs
  induction vs with
  | nil =>
    intro s c _ _ hwf
    exact ⟨s, c, [], rfl, by simp, by simp, rfl, List.nodup_nil, hwf,
      ⟨[], by simp⟩, rfl, rfl, rfl, rfl, rfl⟩
  | cons v vs ih =>
    intro s c hids hnd hwf
    have hvid : v.id = none := hids v (List.mem_cons_self v vs)
    rw [List.map_cons, List.nodup_cons] at hnd
    obtain ⟨s1, vid, c1, hres, hname, hvlt, hwf1, ⟨t1, ht1⟩, hmono,
      hg1, hgv1, hgd1, hdis1, hng1, hnd1⟩ :=
      get_or_insert_vaccine_total c s v hvid hwf
    have hwf1' : VacWF { s1 with goat_vaccines :=
        s1.goat_vaccines ++ [⟨gid, vid⟩] } := hwf1
    obtain ⟨s', c', nv, hrec, hgv, hall, hmap, hnodup, hwf', ⟨t2, ht2⟩,
      hg', hgd', hng', hdis', hndi'⟩ :=
      ih ({ s1 with goat_vaccines := s1.goat_vaccines ++ [⟨gid, vid⟩] })
        (c1 + 1) (fun w hw => hids w (List.mem_cons_of_mem v hw)) hnd.2 hwf1'
    have heval : linkVaccines [] gid (v :: vs) s c = .ok (s', c') := by
      unfold linkVaccines
      rw [hres]
      simp only [List.not_mem_nil, if_false]
      exact hrec
    have hrefv : refName s'.vaccines vid = some v.name := by
      have : s'.vaccines = s1.vaccines ++ t2 := ht2
      unfold refName at hname ⊢
      rcases hfb : findById s1.vaccines vid with _ | r
      · rw [hfb] at hname; cases hname
      · rw [hfb] at hname
        rw [this, findById_append s1.vaccines t2 vid r hfb]
        exact hname
    refine ⟨s', c', ⟨gid, vid⟩ :: nv, heval, ?_, ?_, ?_, ?_, hwf',
      ⟨t1 ++ t2, by rw [ht2, ht1]; simp [List.append_assoc]⟩,
      by rw [hg', hg1], by rw [hgd', hgd1], by rw [hng', hng1],
      by rw [hdis', hdis1], by rw [hndi', hnd1]⟩
    · rw [hgv]
      simp only [hgv1, List.append_assoc, List.singleton_append]
    · intro l hl
      rcases List.mem_cons.mp hl with hl | hl
      · rw [hl]
      · exact hall l hl
    · simp only [List.map_cons]
      rw [hrefv, hmap]
    · simp only [List.map_cons, List.nodup_cons]
      refine ⟨?_, hnodup⟩
      intro hmem
      obtain ⟨l, hl, hlid⟩ := List.mem_map.mp hmem
      have : refName s'.vaccines vid ∈
          nv.map (fun l => refName s'.vaccines l.ref_id) := by
        rw [← hlid]
        exact List.mem_map.mpr ⟨l, hl, rfl⟩
      rw [hmap, hrefv] at this
      obtain ⟨w, hw, hwn⟩ := List.mem_map.mp this
      have : w.name ∈ vs.map (fun v => v.name) :=
        List.mem_map.mpr ⟨w, hw, rfl⟩
      rw [Option.some.inj hwn] at this
      exact hnd.1 this

/-- The fault-free disease-linking loop, mirroring `linkVaccines_exact`. -/
theorem linkDiseases_exact (gid : Int) :
    ∀ (ds : List DiseaseRef) (s : Store) (c : Nat),
    (∀ d ∈ ds, d.id = none) →
    ((ds.map fun d => d.name).Nodup) →
    DisWF s →
    ∃ s' c' nd,
      linkDiseases [] gid ds s c = .ok (s', c') ∧
      s'.goat_diseases = s.goat_diseases ++ nd ∧
      (∀ l ∈ nd, l.goat_id = gid) ∧
      nd.map (fun l => refName s'.diseases l.ref_id) =
        ds.map (fun d => some d.name) ∧
      (nd.map fun l => l.ref_id).Nodup ∧
      DisWF s' ∧
      (∃ t, s'.diseases = s.diseases ++ t) ∧
      s'.goats = s.goats ∧ s'.goat_vaccines = s.goat_vaccines ∧
      s'.nextGoatId = s.nextGoatId ∧ s'.vaccines = s.vaccines ∧
      s'.nextVaccineId = s.nextVaccineId := by
  intro ds
  induction ds with
  | nil =>
    intro s c _ _ hwf
    exact ⟨s, c, [], rfl, by simp, by simp, rfl, List.nodup_nil, hwf,
      ⟨[], by simp⟩, rfl, rfl, rfl, rfl, rfl⟩
  | cons d ds ih =>
    intro s c hids hnd hwf
    have hdid : d.id = none := hids d (List.mem_cons_self d ds)
    rw [List.map_cons, List.nodup_cons] at hnd
    obtain ⟨s1, did, c1, hres, hname, hdlt, hwf1, ⟨t1, ht1⟩, hmono,
      hg1, hgv1, hgd1, hvac1, hng1, hnv1⟩ :=
      get_or_insert_disease_total c s d hdid hwf
    have hwf1' : DisWF { s1 with goat_diseases :=
        s1.goat_diseases ++ [⟨gid, did⟩] } := hwf1
    obtain ⟨s', c', nd, hrec, hgd, hall, hmap, hnodup, hwf', ⟨t2, ht2⟩,
      hg', hgv', hng', hvac', hnv'⟩ :=
      ih ({ s1 with goat_diseases := s1.goat_diseases ++ [⟨gid, did⟩] })
        (c1 + 1) (fun w hw => hids w (List.mem_cons_of_mem d hw)) hnd.2 hwf1'
    have heval : linkDiseases [] gid (d :: ds) s c = .ok (s', c') := by
      unfold linkDiseases
      rw [hres]
      simp only [List.not_mem_nil, if_false]
      exact hrec
    have hrefd : refName s'.diseases did = some d.name := by
      have : s'.diseases = s1.diseases ++ t2 := ht2
      unfold refName at hname ⊢
      rcases hfb : findById s1.diseases did with _ | r
      · rw [hfb] at hname; cases hname
      · rw [hfb] at hname
        rw [this, findById_append s1.diseases t2 did r hfb]
        exact hname
    refine ⟨s', c', ⟨gid, did⟩ :: nd, heval, ?_, ?_, ?_, ?_, hwf',
      ⟨t1 ++ t2, by rw [ht2, ht1]; simp [List.append_assoc]⟩,
      by rw [hg', hg1], by rw [hgv', hgv1], by rw [hng', hng1],
      by rw [hvac', hvac1], by rw [hnv', hnv1]⟩
    · rw [hgd]
      simp only [hgd1, List.append_assoc, List.singleton_append]
    · intro l hl
      rcases List.mem_cons.mp hl with hl | hl
      · rw [hl]
      · exact hall l hl
    · simp only [List.map_cons]
      rw [hrefd, hmap]
    · simp only [List.map_cons, List.nodup_cons]
      refine ⟨?_, hnodup⟩
      intro hmem
      obtain ⟨l, hl, hlid⟩ := List.mem_map.mp hmem
      have : refName s'.diseases did ∈
          nd.map (fun l => refName s'.diseases l.ref_id) := by
        rw [← hlid]
        exact List.mem_map.mpr ⟨l, hl, rfl⟩
      rw [hmap, hrefd] at this
      obtain ⟨w, hw, hwn⟩ := List.mem_map.mp this
      have : w.name ∈ ds.map (fun d => d.name) :=
        List.mem_map.mpr ⟨w, hw, rfl⟩
      rw [Option.some.inj hwn] at this
      exact hnd.1 this

/-- Filtering the goats table by name commutes with `update_goat`'s UPDATE,
because the UPDATE preserves each row's name. -/
theorem filter_map_update (l : List GoatRow) (g : GoatParams) :
    (l.map (fun r => if r.name = g.name then updateRow r g else r)).filter
      (fun r => r.name = g.name) =
    (l.filter (fun r => r.name = g.name)).map (fun r => updateRow r g) := by
  induction l with
  | nil => rfl
  | cons a l ih =>
    simp only [List.map_cons, List.filter_cons]
    by_cases hn : a.name = g.name
    · rw [if_pos hn]
      have h1 : (updateRow a g).name = g.name := hn
      simp [List.filter_cons, h1, hn, ih]
    · rw [if_neg hn]
      simp [List.filter_cons, hn, ih]

/-- C1: `add_goat` is atomic.  Under every fault schedule: if any statement
of the transaction fails, the committed store is exactly the pre-transaction
store (rusqlite rolls the dropped transaction back); and on success the
committed store holds the new base row under the captured generated
identifier together with one link row per supplied vaccination and disease —
never a base row with only a subset of its link rows — while all other
goats' rows and links are untouched. -/
theorem add_goat_atomic :
    ∀ (faults : List Nat) (g : GoatParams) (s : Store), WF s →
    (∀ e, add_goat faults g s = .error e →
      committed s (add_goat faults g s) = s) ∧
    (∀ s' gid, add_goat faults g s = .ok (s', gid) →
      gid = s.nextGoatId ∧
      s'.goats = s.goats ++ [mkGoatRow gid g] ∧
      (s'.goat_vaccines.filter (fun l => l.goat_id = gid)).length =
        g.vaccinations.length ∧
      s'.goat_vaccines.filter (fun l => ¬ l.goat_id = gid) =
        s.goat_vaccines ∧
      (s'.goat_diseases.filter (fun l => l.goat_id = gid)).length =
        g.diseases.length ∧
      s'.goat_diseases.filter (fun l => ¬ l.goat_id = gid) =
        s.goat_diseases) := by
  intro faults g s hwf
  constructor
  · intro e he
    rw [he]
    rfl
  · intro s' gid h
    unfold add_goat at h
    by_cases h0 : 0 ∈ faults
    · rw [if_pos h0] at h; cases h
    rw [if_neg h0] at h
    simp only at h
    rcases hlv : linkVaccines faults s.nextGoatId g.vaccinations
        { s with goats := s.goats ++ [mkGoatRow s.nextGoatId g],
                 nextGoatId := s.nextGoatId + 1 } 1 with _ | ⟨s2, c2⟩ <;>
      rw [hlv] at h
    · cases h
    simp only at h
    rcases hld : linkDiseases faults s.nextGoatId g.diseases s2 c2
        with _ | ⟨s3, c3⟩ <;> rw [hld] at h
    · cases h
    simp only at h
    split_ifs at h with hc
    simp only [Except.ok.injEq, Prod.mk.injEq] at h
    obtain ⟨hs3, hgid⟩ := h
    subst hs3
    subst hgid
    obtain ⟨nv, hv1, hv2, hv3, hv4, hv5, hv6, hv7, hv8⟩ :=
      linkVaccines_ok faults s.nextGoatId g.vaccinations _ 1 s2 c2 hlv
    obtain ⟨nd, hd1, hd2, hd3, hd4, hd5, hd6, hd7, hd8⟩ :=
      linkDiseases_ok faults s.nextGoatId g.diseases s2 c2 s3 c3 hld
    have hgv : s3.goat_vaccines = s.goat_vaccines ++ nv := by
      rw [hd5, hv1]
    have hgd : s3.goat_diseases = s.goat_diseases ++ nd := by
      rw [hd1, hv5]
    have hvacc_old_nil :
        s.goat_vaccines.filter (fun l => l.goat_id = s.nextGoatId) = [] := by
      rw [List.filter_eq_nil_iff]
      intro l hl
      have := hwf.2.1 l hl
      simp only [decide_eq_true_eq]
      omega
    have hvacc_old_keep :
        s.goat_vaccines.filter (fun l => ¬ l.goat_id = s.nextGoatId) =
          s.goat_vaccines := by
      rw [List.filter_eq_self]
      intro l hl
      have := hwf.2.1 l hl
      simp only [decide_not, Bool.not_eq_eq_eq_not, Bool.not_true,
        decide_eq_false_iff_not]
      omega
    have hdis_old_nil :
        s.goat_diseases.filter (fun l => l.goat_id = s.nextGoatId) = [] := by
      rw [List.filter_eq_nil_iff]
      intro l hl
      have := hwf.2.2.1 l hl
      simp only [decide_eq_true_eq]
      omega
    have hdis_old_keep :
        s.goat_diseases.filter (fun l => ¬ l.goat_id = s.nextGoatId) =
          s.goat_diseases := by
      rw [List.filter_eq_self]
      intro l hl
      have := hwf.2.2.1 l hl
      simp only [decide_not, Bool.not_eq_eq_eq_not, Bool.not_true,
        decide_eq_false_iff_not]
      omega
    have hnv_all : nv.filter (fun l => l.goat_id = s.nextGoatId) = nv := by
      rw [List.filter_eq_self]
      intro l hl
      simp [hv3 l hl]
    have hnv_nil : nv.filter (fun l => ¬ l.goat_id = s.nextGoatId) = [] := by
      rw [List.filter_eq_nil_iff]
      intro l hl
      simp [hv3 l hl]
    have hnd_all : nd.filter (fun l => l.goat_id = s.nextGoatId) = nd := by
      rw [List.filter_eq_self]
      intro l hl
      simp [hd3 l hl]
    have hnd_nil : nd.filter (fun l => ¬ l.goat_id = s.nextGoatId) = [] := by
      rw [List.filter_eq_nil_iff]
      intro l hl
      simp [hd3 l hl]
    refine ⟨rfl, ?_, ?_, ?_, ?_, ?_⟩
    · rw [hd4, hv4]
    · rw [hgv, List.filter_append, hvacc_old_nil, hnv_all]
      simpa using hv2
    · rw [hgv, List.filter_append, hvacc_old_keep, hnv_nil,
        List.append_nil]
    · rw [hgd, List.filter_append, hdis_old_nil, hnd_all]
      simpa using hd2
    · rw [hgd, List.filter_append, hdis_old_keep, hnd_nil,
        List.append_nil]

/-- C1 witness: with the first statement of the transaction failing, the
committed store equals the original `sampleStore`. -/
theorem add_goat_atomic_witness :
    committed sampleStore (add_goat [0] (mkParams "Kid" [] []) sampleStore) =
      sampleStore :=
  (add_goat_atomic [0] (mkParams "Kid" [] []) sampleStore (by decide)).1
    (dbInjected 0) (by decide)

/-- C7 counterexample: with no pair-uniqueness constraint on the link tables
(§3 of the spec), `INSERT OR IGNORE` has nothing to ignore, so a replace
whose payload repeats the vaccination name `"X"` inserts the pair `(1, 2)`
twice — the operation succeeds and commits a duplicate (goat, reference)
pair, contradicting the claim. -/
theorem update_goat_duplicate_pair_cex :
    (committed sampleStore (update_goat []
        (mkParams "Daisy" [⟨none, "X"⟩, ⟨none, "X"⟩] [])
        sampleStore)).goat_vaccines = [⟨2, 1⟩, ⟨1, 2⟩, ⟨1, 2⟩] ∧
    ¬ ((committed sampleStore (update_goat []
        (mkParams "Daisy" [⟨none, "X"⟩, ⟨none, "X"⟩] [])
        sampleStore)).goat_vaccines).Nodup ∧
    update_goat [] (mkParams "Daisy" [⟨none, "X"⟩, ⟨none, "X"⟩] [])
        sampleStore =
      .ok (committed sampleStore (update_goat []
        (mkParams "Daisy" [⟨none, "X"⟩, ⟨none, "X"⟩] []) sampleStore), ()) := by
  refine ⟨by decide, by decide, by decide⟩

/-- C7 (amended): for a goat uniquely addressed by name, a fault-free
`update_goat` whose supplied references are id-less with pairwise distinct
names succeeds, first deletes all of that goat's rows in both link tables,
and re-inserts exactly the supplied link set: afterwards the goat's link
rows number exactly the supplied references, contain no duplicate
(goat, reference) pair, and name exactly the supplied vaccination/disease
names in order, while every other goat's link rows are untouched.  (As the
counterexample shows, the original claim's unconditional "no duplicate pair"
fails when the supplied collections repeat a name, since the spec's store
has no pair-uniqueness constraint for `INSERT OR IGNORE` to lean on.) -/
theorem update_goat_replaces_links :
    ∀ (s : Store) (g : GoatParams) (r0 : GoatRow),
    WF s →
    s.goats.filter (fun r => r.name = g.name) = [r0] →
    (∀ v ∈ g.vaccinations, v.id = none) →
    ((g.vaccinations.map fun v => v.name).Nodup) →
    (∀ d ∈ g.diseases, d.id = none) →
    ((g.diseases.map fun d => d.name).Nodup) →
    update_goat [] g s = .ok (committed s (update_goat [] g s), ()) ∧
    ((committed s (update_goat [] g s)).goat_vaccines.filter
        (fun l => l.goat_id = r0.id)).length = g.vaccinations.length ∧
    ((committed s (update_goat [] g s)).goat_vaccines.filter
        (fun l => l.goat_id = r0.id)).Nodup ∧
    ((committed s (update_goat [] g s)).goat_vaccines.filter
        (fun l => l.goat_id = r0.id)).map
        (fun l => refName (committed s (update_goat [] g s)).vaccines
          l.ref_id) = g.vaccinations.map (fun v => some v.name) ∧
    (committed s (update_goat [] g s)).goat_vaccines.filter
        (fun l => ¬ l.goat_id = r0.id) =
      s.goat_vaccines.filter (fun l => ¬ l.goat_id = r0.id) ∧
    ((committed s (update_goat [] g s)).goat_diseases.filter
        (fun l => l.goat_id = r0.id)).length = g.diseases.length ∧
    ((committed s (update_goat [] g s)).goat_diseases.filter
        (fun l => l.goat_id = r0.id)).Nodup ∧
    ((committed s (update_goat [] g s)).goat_diseases.filter
        (fun l => l.goat_id = r0.id)).map
        (fun l => refName (committed s (update_goat [] g s)).diseases
          l.ref_id) = g.diseases.map (fun d => some d.name) ∧
    (committed s (update_goat [] g s)).goat_diseases.filter
        (fun l => ¬ l.goat_id = r0.id) =
      s.goat_diseases.filter (fun l => ¬ l.goat_id = r0.id) := by
  intro s g r0 hwf hone hvids hvnames hdids hdnames
  obtain ⟨s4, c4, nv, hlv, hgv4, hall4, hmap4, hnodup4, hwf4, ⟨tv, htv⟩,
    hg4, hgd4, hng4, hdis4, hndi4⟩ :=
    linkVaccines_exact r0.id g.vaccinations
      { s with
        goats := s.goats.map
          (fun (r : GoatRow) => if r.name = g.name then updateRow r g else r),
        goat_vaccines := s.goat_vaccines.filter
          (fun l => ¬ l.goat_id ∈ [r0.id]),
        goat_diseases := s.goat_diseases.filter
          (fun l => ¬ l.goat_id ∈ [r0.id]) } 4 hvids hvnames hwf.2.2.2.1
  have hwfD4 : DisWF s4 := by
    unfold DisWF
    rw [hdis4, hndi4]
    exact hwf.2.2.2.2.1
  obtain ⟨s5, c5, nd, hld, hgd5, hall5, hmap5, hnodup5, hwf5, ⟨td, htd⟩,
    hg5, hgv5, hng5, hvac5, hnv5⟩ :=
    linkDiseases_exact r0.id g.diseases s4 c4 hdids hdnames hwfD4
  have hrun1 : update_goat [] g s =
      (match linkVaccines [] r0.id g.vaccinations
          { s with
            goats := s.goats.map
              (fun (r : GoatRow) =>
                if r.name = g.name then updateRow r g else r),
            goat_vaccines := s.goat_vaccines.filter
              (fun l => ¬ l.goat_id ∈ [r0.id]),
            goat_diseases := s.goat_diseases.filter
              (fun l => ¬ l.goat_id ∈ [r0.id]) } 4 with
       | .error e => .error e
       | .ok (s4, c4) =>
         match linkDiseases [] r0.id g.diseases s4 c4 with
         | .error e => .error e
         | .ok (s5, c5) => .ok (s5, ())) := by
    have hupd_id : ∀ (r : GoatRow) (p : GoatParams),
        (updateRow r p).id = r.id := fun _ _ => rfl
    simp only [update_goat, List.not_mem_nil, if_false]
    rw [hone, filter_map_update, hone]
    simp only [List.map_cons, List.map_nil, List.take, List.head?_cons,
      List.length_cons, List.length_nil, Nat.zero_add, hupd_id,
      one_ne_zero, ite_false]
  have hfinal : update_goat [] g s = .ok (s5, ()) := by
    rw [hrun1, hlv]
    simp only
    rw [hld]
  rw [hfinal]
  simp only [committed]
  have hgv5' : s5.goat_vaccines =
      (s.goat_vaccines.filter (fun l => ¬ l.goat_id ∈ [r0.id])) ++ nv := by
    rw [hgv5, hgv4]
  have hgd5' : s5.goat_diseases =
      (s.goat_diseases.filter (fun l => ¬ l.goat_id ∈ [r0.id])) ++ nd := by
    rw [hgd5, hgd4]
  have hlen_nv : nv.length = g.vaccinations.length := by
    have := congrArg List.length hmap4
    simpa using this
  have hlen_nd : nd.length = g.diseases.length := by
    have := congrArg List.length hmap5
    simpa using this
  have hold_v_nil : (s.goat_vaccines.filter
      (fun l => ¬ l.goat_id ∈ [r0.id])).filter
      (fun l => l.goat_id = r0.id) = [] := by
    rw [List.filter_eq_nil_iff]
    intro l hl
    have := (List.mem_filter.mp hl).2
    simp only [List.mem_singleton, decide_not] at this
    simpa using this
  have hold_v_keep : (s.goat_vaccines.filter
      (fun l => ¬ l.goat_id ∈ [r0.id])).filter
      (fun l => ¬ l.goat_id = r0.id) =
      s.goat_vaccines.filter (fun l => ¬ l.goat_id = r0.id) := by
    rw [List.filter_filter]
    apply List.filter_congr
    intro l _
    simp
  have hold_d_nil : (s.goat_diseases.filter
      (fun l => ¬ l.goat_id ∈ [r0.id])).filter
      (fun l => l.goat_id = r0.id) = [] := by
    rw [List.filter_eq_nil_iff]
    intro l hl
    have := (List.mem_filter.mp hl).2
    simp only [List.mem_singleton, decide_not] at this
    simpa using this
  have hold_d_keep : (s.goat_diseases.filter
      (fun l => ¬ l.goat_id ∈ [r0.id])).filter
      (fun l => ¬ l.goat_id = r0.id) =
      s.goat_diseases.filter (fun l => ¬ l.goat_id = r0.id) := by
    rw [List.filter_filter]
    apply List.filter_congr
    intro l _
    simp
  have hnv_all : nv.filter (fun l => l.goat_id = r0.id) = nv := by
    rw [List.filter_eq_self]
    intro l hl
    simp [hall4 l hl]
  have hnv_nil : nv.filter (fun l => ¬ l.goat_id = r0.id) = [] := by
    rw [List.filter_eq_nil_iff]
    intro l hl
    simp [hall4 l hl]
  have hnd_all : nd.filter (fun l => l.goat_id = r0.id) = nd := by
    rw [List.filter_eq_self]
    intro l hl
    simp [hall5 l hl]
  have hnd_nil : nd.filter (fun l => ¬ l.goat_id = r0.id) = [] := by
    rw [List.filter_eq_nil_iff]
    intro l hl
    simp [hall5 l hl]
  have hfv : s5.goat_vaccines.filter (fun l => l.goat_id = r0.id) = nv := by
    rw [hgv5', List.filter_append, hold_v_nil, hnv_all, List.nil_append]
  have hfd : s5.goat_diseases.filter (fun l => l.goat_id = r0.id) = nd := by
    rw [hgd5', List.filter_append, hold_d_nil, hnd_all, List.nil_append]
  refine ⟨trivial, ?_, ?_, ?_, ?_, ?_, ?_, ?_, ?_⟩
  · rw [hfv, hlen_nv]
  · rw [hfv]
    exact List.Nodup.of_map _ hnodup4
  · rw [hfv]
    rw [hvac5]
    exact hmap4
  · rw [hgv5', List.filter_append, hold_v_keep, hnv_nil, List.append_nil]
  · rw [hfd, hlen_nd]
  · rw [hfd]
    exact List.Nodup.of_map _ hnodup5
  · rw [hfd]
    exact hmap5
  · rw [hgd5', List.filter_append, hold_d_keep, hnd_nil, List.append_nil]

/-- C7 witness: replacing Daisy's links (previously the one link to vaccine
1) with the single fresh vaccination `"X"` leaves exactly one vaccine link
row for Daisy — the one naming `"X"` — and Bella's link untouched. -/
theorem update_goat_replaces_links_witness :
    update_goat [] (mkParams "Daisy" [⟨none, "X"⟩] []) sampleStore =
      .ok (committed sampleStore
        (update_goat [] (mkParams "Daisy" [⟨none, "X"⟩] []) sampleStore),
        ()) ∧
    ((committed sampleStore (update_goat []
        (mkParams "Daisy" [⟨none, "X"⟩] []) sampleStore)).goat_vaccines.filter
        (fun l => l.goat_id = (sampleRow 1 "Daisy").id)).length =
      (mkParams "Daisy" [⟨none, "X"⟩] []).vaccinations.length ∧
    ((committed sampleStore (update_goat []
        (mkParams "Daisy" [⟨none, "X"⟩] []) sampleStore)).goat_vaccines.filter
        (fun l => l.goat_id = (sampleRow 1 "Daisy").id)).Nodup ∧
    ((committed sampleStore (update_goat []
        (mkParams "Daisy" [⟨none, "X"⟩] []) sampleStore)).goat_vaccines.filter
        (fun l => l.goat_id = (sampleRow 1 "Daisy").id)).map
        (fun l => refName (committed sampleStore (update_goat []
          (mkParams "Daisy" [⟨none, "X"⟩] []) sampleStore)).vaccines
          l.ref_id) =
      (mkParams "Daisy" [⟨none, "X"⟩] []).vaccinations.map
        (fun v => some v.name) ∧
    (committed sampleStore (update_goat []
        (mkParams "Daisy" [⟨none, "X"⟩] []) sampleStore)).goat_vaccines.filter
        (fun l => ¬ l.goat_id = (sampleRow 1 "Daisy").id) =
      sampleStore.goat_vaccines.filter
        (fun l => ¬ l.goat_id = (sampleRow 1 "Daisy").id) ∧
    ((committed sampleStore (update_goat []
        (mkParams "Daisy" [⟨none, "X"⟩] []) sampleStore)).goat_diseases.filter
        (fun l => l.goat_id = (sampleRow 1 "Daisy").id)).length =
      (mkParams "Daisy" [⟨none, "X"⟩] []).diseases.length ∧
    ((committed sampleStore (update_goat []
        (mkParams "Daisy" [⟨none, "X"⟩] []) sampleStore)).goat_diseases.filter
        (fun l => l.goat_id = (sampleRow 1 "Daisy").id)).Nodup ∧
    ((committed sampleStore (update_goat []
        (mkParams "Daisy" [⟨none, "X"⟩] []) sampleStore)).goat_diseases.filter
        (fun l => l.goat_id = (sampleRow 1 "Daisy").id)).map
        (fun l => refName (committed sampleStore (update_goat []
          (mkParams "Daisy" [⟨none, "X"⟩] []) sampleStore)).diseases
          l.ref_id) =
      (mkParams "Daisy" [⟨none, "X"⟩] []).diseases.map
        (fun d => some d.name) ∧
    (committed sampleStore (update_goat []
        (mkParams "Daisy" [⟨none, "X"⟩] []) sampleStore)).goat_diseases.filter
        (fun l => ¬ l.goat_id = (sampleRow 1 "Daisy").id) =
      sampleStore.goat_diseases.filter
        (fun l => ¬ l.goat_id = (sampleRow 1 "Daisy").id) :=
  update_goat_replaces_links sampleStore (mkParams "Daisy" [⟨none, "X"⟩] [])
    (sampleRow 1 "Daisy") (by decide) (by decide) (by decide) (by decide)
    (by decide) (by decide)

/-- C6 witness: the amended behaviour at the concrete fresh name `"Y"` with
a concurrent writer committing `"Y"`, for both resolvers. -/
theorem resolver_conflict_propagates_witness :
    get_or_insert_vaccine [] ["Y"] 0 sampleStore ⟨none, "Y"⟩ =
      .error (.DbError (.constraintUnique "vaccines" "Y")) ∧
    get_or_insert_disease [] ["Y"] 0 sampleStore ⟨none, "Y"⟩ =
      .error (.DbError (.constraintUnique "diseases" "Y")) :=
  ⟨(resolver_conflict_propagates sampleStore ⟨none, "Y"⟩ ⟨none, "Y"⟩ ["Y"] 0).1
      rfl (by decide) (by decide),
   (resolver_conflict_propagates sampleStore ⟨none, "Y"⟩ ⟨none, "Y"⟩ ["Y"] 0).2
      rfl (by decide) (by decide)⟩

end Yagi
